import Mathlib

/- Verification of the antgent repository's core decision logic, via a shallow
   embedding of:
   - the iterative summarize-then-grade loop (antgent/agents/summarizer/logic.py),
   - the agent configuration resolver (antgent/agents/config_resolver.py),
   - the per-run dynamic configuration merge (antgent/workflows/base.py),
   - the synchronous summarizer endpoints (antgent/server/api/workflows/summarizer.py).

   External LLM calls (the generator and grader agents) are modelled as function
   parameters returning `Option` results, matching the `await agent.workflow(...)`
   call sites that return a result or `None`. -/

/-! ## Data model (antgent/agents/summarizer/models.py) -/

/-- Summary types (`SummaryType`): `PRETTY` and `MACHINE`. -/
inductive SummaryType where
  | pretty
  | machine
  deriving DecidableEq, Repr, Inhabited

/-- A named entity reported missing by the grader (`Entity`). -/
structure Entity where
  name : String
  type : String
  deriving DecidableEq, Repr, Inhabited

/-- Input of one summarization run (`SummaryInput`).  `iterations` is a Python
`int`, embedded as `Int`. -/
structure SummaryInput where
  content : String
  feedbacks : List String := []
  to_language : String := "de"
  summary_type : SummaryType := .machine
  iterations : Int := 1
  deriving DecidableEq, Repr, Inhabited

/-- One generated summary candidate (`SummaryOutput`). -/
structure SummaryOutput where
  short_version : String
  description : String
  title : String
  tags : List String := []
  language : String
  deriving DecidableEq, Repr, Inhabited

/-- One grading result (`SummaryGrade`, extending `GradeFeedback`). -/
structure SummaryGrade where
  grade : Int
  feedbacks : List String
  grade_reasoning : String
  missing_entities : List Entity
  deriving DecidableEq, Repr, Inhabited

/-- Context handed to the judge agent (`SummaryGradeCtx`): the candidate's
fields plus the original text. -/
structure SummaryGradeCtx where
  short_version : String
  description : String
  title : String
  tags : List String
  language : String
  original_text : String
  deriving DecidableEq, Repr, Inhabited

/-- Final result of `summarize_one_type` (`InternalSummaryResult`). -/
structure InternalSummaryResult where
  summary : SummaryOutput
  grades : List SummaryGrade
  summaries : List SummaryOutput
  summary_type : SummaryType
  deriving DecidableEq, Repr, Inhabited

/-! ## The refinement loop (antgent/agents/summarizer/logic.py, summarize_one_type) -/

/-- Builds the grading context, logic.py line 59:
`SummaryGradeCtx(**summary.model_dump(), original_text=ctx.content)`. -/
def mkGradeCtx (s : SummaryOutput) (original_text : String) : SummaryGradeCtx :=
  { short_version := s.short_version
    description := s.description
    title := s.title
    tags := s.tags
    language := s.language
    original_text := original_text }

/-- The early-stop test of logic.py line 65:
`summary_grade.grade >= 8 or (len(summary_grade.missing_entities) == 0 and summary_grade.grade > 6)`. -/
def stopEarly (g : SummaryGrade) : Bool :=
  decide (8 ≤ g.grade) || (g.missing_entities.length == 0 && decide (6 < g.grade))

/-- The effective iteration count, logic.py lines 35-37:
`iterations = ctx.iterations; if iterations == 0: iterations = 1`. -/
def effIterations (n : Int) : Int :=
  if n = 0 then 1 else n

/-- Loop accumulator of `summarize_one_type`: the `summaries` and `grades`
lists, instrumented with ghost counters for the two agent-call sites
(`summarize_agent.workflow` at line 49 and `judge_agent.workflow` at line 60). -/
structure LoopState where
  summaries : List SummaryOutput := []
  grades : List SummaryGrade := []
  genCalls : Nat := 0
  judgeCalls : Nat := 0
  deriving DecidableEq, Repr, Inhabited

/-- The `while i < iterations` loop of logic.py lines 43-69.  The remaining
fuel is `iterations - i`, which shrinks by one on every pass because `i += 1`
runs first (line 44), including when the generator returns `None` and the body
does `continue` (lines 50-52).  On a successful generation the candidate is
appended; with an effective iteration count of 1 the loop breaks before
grading (lines 55-56); a `None` grading result breaks (lines 61-62); an
appended grade breaks when `stopEarly` holds (lines 65-66); otherwise the
grader's feedbacks replace `ctx.feedbacks` (line 69) and the loop continues. -/
def summarizeLoop (gen : SummaryInput → Option SummaryOutput)
    (judge : SummaryGradeCtx → Option SummaryGrade) (iterations : Int) :
    Nat → SummaryInput → LoopState → LoopState
  | 0, _, acc => acc
  | fuel + 1, ctx, acc =>
    let acc1 := { acc with genCalls := acc.genCalls + 1 }
    match gen ctx with
    | none => summarizeLoop gen judge iterations fuel ctx acc1
    | some summary =>
      let acc2 := { acc1 with summaries := acc1.summaries ++ [summary] }
      if iterations = 1 then acc2
      else
        let acc3 := { acc2 with judgeCalls := acc2.judgeCalls + 1 }
        match judge (mkGradeCtx summary ctx.content) with
        | none => acc3
        | some g =>
          let acc4 := { acc3 with grades := acc3.grades ++ [g] }
          if stopEarly g then acc4
          else
            summarizeLoop gen judge iterations fuel
              { ctx with feedbacks := g.feedbacks } acc4

/-- Runs the whole loop of `summarize_one_type` from the initial state
(logic.py lines 35-69). -/
def runLoop (gen : SummaryInput → Option SummaryOutput)
    (judge : SummaryGradeCtx → Option SummaryGrade) (ctx : SummaryInput) : LoopState :=
  let iterations := effIterations ctx.iterations
  summarizeLoop gen judge iterations iterations.toNat ctx {}

/-- The best-candidate scan of logic.py lines 74-78:
`best = 0; for i, grade in enumerate(grades): if grade.grade >= grades[best].grade: best = i`. -/
def bestIndex (grades : List SummaryGrade) : Nat :=
  (List.range grades.length).foldl
    (fun best i =>
      if (grades.getD i default).grade ≥ (grades.getD best default).grade then i
      else best)
    0

/-- Recursive restatement of `bestIndex` restricted to the first `n` indices,
used for induction. -/
def bestAux (grades : List SummaryGrade) : Nat → Nat
  | 0 => 0
  | n + 1 =>
    let b := bestAux grades n
    if (grades.getD n default).grade ≥ (grades.getD b default).grade then n else b

/-- `summarize_one_type` (logic.py lines 25-87) with the generator and grader
agents abstracted as functions.  Raising `ApplicationError` (line 72) is
embedded as `Except.error`.  After the loop: if no summary was generated the
call fails; else with a non-empty grade list the best index comes from the
`>=` scan, and with no grades the best summary is the last one generated
(lines 71-85). -/
def summarize_one_type (gen : SummaryInput → Option SummaryOutput)
    (judge : SummaryGradeCtx → Option SummaryGrade) (ctx : SummaryInput) :
    Except String InternalSummaryResult :=
  let out := runLoop gen judge ctx
  if out.summaries.isEmpty then Except.error "No summaries generated"
  else
    let best := if out.grades.isEmpty then out.summaries.length - 1
      else bestIndex out.grades
    Except.ok
      { summary := out.summaries.getD best default
        grades := out.grades
        summaries := out.summaries
        summary_type := ctx.summary_type }

/-! ## Concrete runs used to settle the tie-break and stop-rule claims -/

/-- Generator whose output records the feedbacks it was shown (in `tags`), so
that candidates from different iterations are distinguishable. -/
def tagGen : SummaryInput → Option SummaryOutput := fun ctx =>
  some { short_version := "s", description := "d", title := "t",
         tags := ctx.feedbacks, language := "en" }

/-- Grader that always answers grade 5 with one feedback: never good enough,
so the loop only stops on budget exhaustion. -/
def flatJudge : SummaryGradeCtx → Option SummaryGrade := fun _ =>
  some { grade := 5, feedbacks := ["f"], grade_reasoning := "r", missing_entities := [] }

/-- Input asking for two refinement iterations. -/
def twoIterCtx : SummaryInput :=
  { content := "c", feedbacks := [], to_language := "de",
    summary_type := .machine, iterations := 2 }

/-- The exact run of `summarize_one_type tagGen flatJudge twoIterCtx`:
both iterations produce grade 5, and the code's `>=` scan settles on the
second (later) candidate. -/
def tieResult : InternalSummaryResult :=
  { summary := { short_version := "s", description := "d", title := "t",
                 tags := ["f"], language := "en" }
    grades := [{ grade := 5, feedbacks := ["f"], grade_reasoning := "r", missing_entities := [] },
               { grade := 5, feedbacks := ["f"], grade_reasoning := "r", missing_entities := [] }]
    summaries := [{ short_version := "s", description := "d", title := "t",
                    tags := [], language := "en" },
                  { short_version := "s", description := "d", title := "t",
                    tags := ["f"], language := "en" }]
    summary_type := .machine }

/-- Grader producing the grade sequence 5, 8, 6 across iterations (keyed on
how many feedbacks the candidate was generated from). -/
def seqJudge : SummaryGradeCtx → Option SummaryGrade := fun gctx =>
  match gctx.tags.length with
  | 0 => some { grade := 5, feedbacks := ["improve"], grade_reasoning := "r", missing_entities := [] }
  | 1 => some { grade := 8, feedbacks := [], grade_reasoning := "r", missing_entities := [] }
  | _ + 2 => some { grade := 6, feedbacks := [], grade_reasoning := "r", missing_entities := [] }

/-- Input asking for three refinement iterations. -/
def threeIterCtx : SummaryInput :=
  { content := "c", feedbacks := [], to_language := "de",
    summary_type := .machine, iterations := 3 }

/-- Expected run for the grade sequence [5, 8, 6]: the loop stops after the
second iteration (grade 8), so only two candidates and two grades exist and
the second candidate is best. -/
def seqResult : InternalSummaryResult :=
  { summary := { short_version := "s", description := "d", title := "t",
                 tags := ["improve"], language := "en" }
    grades := [{ grade := 5, feedbacks := ["improve"], grade_reasoning := "r", missing_entities := [] },
               { grade := 8, feedbacks := [], grade_reasoning := "r", missing_entities := [] }]
    summaries := [{ short_version := "s", description := "d", title := "t",
                    tags := [], language := "en" },
                  { short_version := "s", description := "d", title := "t",
                    tags := ["improve"], language := "en" }]
    summary_type := .machine }

/-! ## Configuration resolver (antgent/agents/config_resolver.py, models/agent.py) -/

/-- The `client` literal of `ModelInfo` and `ProviderMapping`:
`"openai" | "gemini" | "litellm"`. -/
inductive ClientKind where
  | openai
  | gemini
  | litellm
  deriving DecidableEq, Repr, Inhabited

/-- The `api_mode` literal: `"chat" | "response"`. -/
inductive ApiMode where
  | chat
  | response
  deriving DecidableEq, Repr, Inhabited

/-- Placeholder for the external agents-SDK `ModelSettings` value; the
resolver only copies it around, never inspects it. -/
structure ModelSettings where
  raw : String := ""
  deriving DecidableEq, Repr, Inhabited

/-- `ProviderSettings` (models/agent.py): defaults used when no prefix matches. -/
structure ProviderSettings where
  client : ClientKind := .litellm
  api_mode : ApiMode := .chat
  deriving DecidableEq, Repr, Inhabited

/-- `ProviderMapping` (models/agent.py): a model-name prefix (`pfx`, the
source's prefix field) with the client and api_mode to apply when it matches. -/
structure ProviderMapping where
  pfx : String
  client : ClientKind
  api_mode : ApiMode
  deriving DecidableEq, Repr, Inhabited

/-- `ModelProvidersConfig` (models/agent.py): a declared default plus an
ordered mapping list. -/
structure ModelProvidersConfig where
  default : ProviderSettings := {}
  mappings : List ProviderMapping := []
  deriving DecidableEq, Repr, Inhabited

/-- `AgentConfig` (models/agent.py): `ModelInfo` fields plus `name` and
`description`, with the pydantic field defaults. -/
structure AgentConfig where
  model : String := "openai/gpt-4o"
  client : ClientKind := .openai
  api_mode : ApiMode := .chat
  model_settings : ModelSettings := {}
  max_input_tokens : Option Int := none
  base_url : Option String := none
  api_key : Option String := none
  name : String := ""
  description : String := ""
  deriving DecidableEq, Repr, Inhabited

/-- A caller override as seen through
`conf.model_dump(exclude_unset=True, exclude_defaults=True)` (config_resolver.py
line 74): each field is present only when explicitly set, embedded as `Option`. -/
structure AgentConfigOverride where
  model : Option String := none
  client : Option ClientKind := none
  api_mode : Option ApiMode := none
  model_settings : Option ModelSettings := none
  max_input_tokens : Option (Option Int) := none
  base_url : Option (Option String) := none
  api_key : Option (Option String) := none
  name : Option String := none
  description : Option String := none
  deriving DecidableEq, Repr, Inhabited

/-- `_resolve_model_name` (config_resolver.py lines 15-23): identity when no
alias resolver is attached, else the resolver's substitution.  The resolver
(from the absent aliases module) is abstracted as a function. -/
def _resolve_model_name (alias_resolver : Option (String → String))
    (model_name : String) : String :=
  match alias_resolver with
  | none => model_name
  | some r => r model_name

/-- Python `model_name.startswith(mapping.prefix)`, evaluated on the
character lists of the strings. -/
def pyStartsWith (s pre : String) : Bool :=
  pre.data.isPrefixOf s.data

/-- `_find_provider_mapping` (config_resolver.py lines 25-36): the first
mapping in declaration order whose prefix starts the model name, else `none`. -/
def _find_provider_mapping (model_name : String)
    (provider_config : ModelProvidersConfig) : Option ProviderMapping :=
  provider_config.mappings.find? (fun m => pyStartsWith model_name m.pfx)

/-- `_apply_provider_setting` (config_resolver.py lines 38-62) for one setting:
when the caller override carries the setting the result entry is left alone
(line 49-53); else the matched mapping's value, else the declared default. -/
def _apply_provider_setting {α : Type} (override_val : Option α) (current_val : α)
    (matched_mapping : Option ProviderMapping) (from_mapping : ProviderMapping → α)
    (default_val : α) : α :=
  if override_val.isSome then current_val
  else
    match matched_mapping with
    | some m => from_mapping m
    | none => default_val

/-- `update_config` (config_resolver.py lines 64-110).  `result_dict` starts
as the default config (line 69); the model name is the override's if set else
the default's (line 77) and is passed through the alias resolver (line 79) —
the resolved name feeds `_find_provider_mapping` (line 88) but is never
written back into `result_dict`.  Provider settings are applied for `client`
and `api_mode` (lines 91-96), then every explicitly-set override field
overwrites the entry (`result_dict.update(config_overrides)`, line 99), and
the record is validated (line 101). -/
def update_config (alias_resolver : Option (String → String))
    (provider_config : Option ModelProvidersConfig)
    (default_config : AgentConfig) (conf : Option AgentConfigOverride) : AgentConfig :=
  let config_overrides := conf.getD {}
  let model_name := config_overrides.model.getD default_config.model
  let resolved_model := _resolve_model_name alias_resolver model_name
  let pc := provider_config.getD {}
  let matched_mapping := _find_provider_mapping resolved_model pc
  let client :=
    _apply_provider_setting config_overrides.client default_config.client
      matched_mapping ProviderMapping.client pc.default.client
  let api_mode :=
    _apply_provider_setting config_overrides.api_mode default_config.api_mode
      matched_mapping ProviderMapping.api_mode pc.default.api_mode
  { model := config_overrides.model.getD default_config.model
    client := config_overrides.client.getD client
    api_mode := config_overrides.api_mode.getD api_mode
    model_settings := config_overrides.model_settings.getD default_config.model_settings
    max_input_tokens := config_overrides.max_input_tokens.getD default_config.max_input_tokens
    base_url := config_overrides.base_url.getD default_config.base_url
    api_key := config_overrides.api_key.getD default_config.api_key
    name := config_overrides.name.getD default_config.name
    description := config_overrides.description.getD default_config.description }

/-- Concrete alias resolver mapping the model name "fast" to "gemini/pro". -/
def fastAlias : String → String := fun m => if m = "fast" then "gemini/pro" else m

/-- Default config whose model is the alias name "fast". -/
def fastDefault : AgentConfig := { model := "fast", name := "A" }

/-! ## Dynamic per-run configuration (antgent/workflows/base.py) -/

/-- Modelled from the spec: the alias table backing the absent
`antgent/aliases.py` module (`Aliases` / `AliasResolver`), a dict from alias
names to model names; per spec section 4.1 a model name is substituted
through it, identity when absent.  Embedded as an association list with
Python-dict lookup and update semantics. -/
abbrev AliasTable := List (String × String)

/-- Modelled from the spec: dict lookup in an alias table (first entry with
the key). -/
def lookupTable (t : AliasTable) (k : String) : Option String :=
  (t.find? (fun p => p.1 == k)).map (fun p => p.2)

/-- Modelled from the spec: Python `d[k] = v` on a dict embedded as an
association list — replace the value in place when the key exists, else
append the new entry. -/
def setItem (t : AliasTable) (k v : String) : AliasTable :=
  if t.any (fun p => p.1 == k) then
    t.map (fun p => if p.1 == k then (p.1, v) else p)
  else t ++ [(k, v)]

/-- Modelled from the spec: Python `dict.update` — fold `setItem` over the
entries of the overriding dict. -/
def dictUpdate (t : AliasTable) (o : AliasTable) : AliasTable :=
  o.foldl (fun acc p => setItem acc p.1 p.2) t

/-- `ModelInfo` (models/agent.py) with its pydantic defaults, used for
per-agent overrides in `DynamicAgentConfig.agents`. -/
structure ModelInfo where
  model : String := "openai/gpt-4o"
  client : ClientKind := .openai
  api_mode : ApiMode := .chat
  model_settings : ModelSettings := {}
  max_input_tokens : Option Int := none
  base_url : Option String := none
  api_key : Option String := none
  deriving DecidableEq, Repr, Inhabited

/-- `DynamicAgentConfig` (models/agent.py): optional global model override,
run-scoped alias entries, and per-agent overrides keyed by agent name. -/
structure DynamicAgentConfig where
  model : Option String := none
  aliases : AliasTable := []
  agents : List (String × ModelInfo) := []
  deriving DecidableEq, Repr, Inhabited

/-- The shared state read by `_apply_dynamic_config`: the module-level global
alias table (`Aliases`) and the class-level config template
(`_AGENTSCONF_TEMPLATE`, workflows/base.py line 90). -/
structure WorkflowGlobals where
  aliases : AliasTable
  template : List (String × AgentConfig)
  deriving DecidableEq, Repr, Inhabited

/-- Everything `_apply_dynamic_config` leaves behind: the shared state after
the call, the workflow's alias resolver (its table), and the returned per-run
agent configuration. -/
structure DynamicApplyOut where
  globals : WorkflowGlobals
  alias_resolver : AliasTable
  agentsconf : List (String × AgentConfig)
  deriving DecidableEq, Repr, Inhabited

/-- Lookup of an agent's config in the per-run table (Python dict access). -/
def lookupAgent (rc : List (String × AgentConfig)) (k : String) : Option AgentConfig :=
  (rc.find? (fun p => p.1 == k)).map (fun p => p.2)

/-- The per-agent override step of `_apply_dynamic_config` (workflows/base.py
lines 153-158): when the agent is absent a fresh `AgentConfig(name=agent_name)`
is inserted; then ONLY the `model` field is set from the override. -/
def setAgentModel (rc : List (String × AgentConfig)) (agent_name : String)
    (m : String) : List (String × AgentConfig) :=
  if rc.any (fun p => p.1 == agent_name) then
    rc.map (fun p => if p.1 == agent_name then (p.1, { p.2 with model := m }) else p)
  else
    rc ++ [(agent_name, { ({} : AgentConfig) with name := agent_name, model := m })]

/-- `_apply_dynamic_config` (workflows/base.py lines 124-160).  Statement by
statement: `result_config` is a deep copy of the template (line 137, a copy of
an immutable value in the pure embedding); when run aliases are supplied a
copy of the global table is taken and updated and a fresh resolver is built on
it (lines 140-145) — the global table itself is only read; the global model
override rewrites every agent's `model` (lines 148-150); per-agent overrides
set only the `model` field (lines 153-158).  The shared globals are returned
so that (non-)mutation is part of the function's meaning. -/
def _apply_dynamic_config (g : WorkflowGlobals) (current_resolver : AliasTable)
    (dynamic_config : DynamicAgentConfig) : DynamicApplyOut :=
  let result_config := g.template
  let resolver :=
    if dynamic_config.aliases.isEmpty then current_resolver
    else dictUpdate g.aliases dynamic_config.aliases
  let result_config :=
    match dynamic_config.model with
    | some m => result_config.map (fun p => (p.1, { p.2 with model := m }))
    | none => result_config
  let result_config :=
    dynamic_config.agents.foldl (fun rc p => setAgentModel rc p.1 p.2.model) result_config
  { globals := g, alias_resolver := resolver, agentsconf := result_config }

/-! ## Synchronous summarizer endpoints (antgent/server/api/workflows/summarizer.py) -/

/-- The input preparation of `text_summarize_all` (lines 76-78), shared by
POST /api/workflows/summarizer-multi/sync and its deprecated alias: requests
with more than 3 iterations are capped to exactly 3 before the workflow is
started; everything else in the input is passed through. -/
def text_summarize_all_prepare (ctx : SummaryInput) : SummaryInput :=
  if ctx.iterations > 3 then { ctx with iterations := 3 } else ctx

/-- The input preparation of the single-type `text_summarize` endpoint
(lines 30-44): the summary input is handed to the workflow unchanged — no
iteration cap exists on this path. -/
def text_summarize_prepare (ctx : SummaryInput) : SummaryInput := ctx

/-! ## Helper lemmas about the refinement loop -/

/-- Each pass of the while-loop consumes one unit of fuel, so the generator is
called at most `fuel` more times. -/
theorem summarizeLoop_genCalls_le (gen : SummaryInput → Option SummaryOutput)
    (judge : SummaryGradeCtx → Option SummaryGrade) (iterations : Int) :
    ∀ (fuel : Nat) (ctx : SummaryInput) (acc : LoopState),
      (summarizeLoop gen judge iterations fuel ctx acc).genCalls ≤ acc.genCalls + fuel := by
  intro fuel
  induction fuel with
  | zero => intro ctx acc; simp [summarizeLoop]
  | succ f ih =>
    intro ctx acc
    rcases hg : gen ctx with _ | s
    · have := ih ctx { acc with genCalls := acc.genCalls + 1 }
      simp only [summarizeLoop, hg] at this ⊢
      omega
    · by_cases h1 : iterations = 1
      · simp [summarizeLoop, hg, h1]
      · rcases hj : judge (mkGradeCtx s ctx.content) with _ | g
        · simp [summarizeLoop, hg, h1, hj]
        · by_cases hs : stopEarly g
          · simp [summarizeLoop, hg, h1, hj, hs]
          · have := ih { ctx with feedbacks := g.feedbacks }
              { acc with genCalls := acc.genCalls + 1,
                         summaries := acc.summaries ++ [s],
                         judgeCalls := acc.judgeCalls + 1,
                         grades := acc.grades ++ [g] }
            simp only [summarizeLoop, hg, h1, hj, hs] at this ⊢
            simp at this ⊢
            omega

/-- When the generator always fails, every loop pass only advances the
counter: no summary or grade is ever produced and all fuel is consumed. -/
theorem summarizeLoop_gen_none (judge : SummaryGradeCtx → Option SummaryGrade)
    (iterations : Int) :
    ∀ (fuel : Nat) (ctx : SummaryInput) (acc : LoopState),
      summarizeLoop (fun _ => none) judge iterations fuel ctx acc
        = { acc with genCalls := acc.genCalls + fuel } := by
  intro fuel
  induction fuel with
  | zero => intro ctx acc; simp [summarizeLoop]
  | succ f ih =>
    intro ctx acc
    have := ih ctx { acc with genCalls := acc.genCalls + 1 }
    simp only [summarizeLoop] at this ⊢
    rw [this]
    simp
    omega

/-- Loop invariant: at most one grade is appended per appended summary, so the
grades list never outgrows the summaries list. -/
theorem summarizeLoop_len_inv (gen : SummaryInput → Option SummaryOutput)
    (judge : SummaryGradeCtx → Option SummaryGrade) (iterations : Int) :
    ∀ (fuel : Nat) (ctx : SummaryInput) (acc : LoopState),
      acc.grades.length ≤ acc.summaries.length →
      (summarizeLoop gen judge iterations fuel ctx acc).grades.length
        ≤ (summarizeLoop gen judge iterations fuel ctx acc).summaries.length := by
  intro fuel
  induction fuel with
  | zero => intro ctx acc h; simpa [summarizeLoop] using h
  | succ f ih =>
    intro ctx acc h
    rcases hg : gen ctx with _ | s
    · have := ih ctx { acc with genCalls := acc.genCalls + 1 } h
      simpa [summarizeLoop, hg] using this
    · by_cases h1 : iterations = 1
      · simp [summarizeLoop, hg, h1]
        omega
      · rcases hj : judge (mkGradeCtx s ctx.content) with _ | g
        · simp [summarizeLoop, hg, h1, hj]
          omega
        · by_cases hs : stopEarly g
          · simp [summarizeLoop, hg, h1, hj, hs]
            omega
          · have := ih { ctx with feedbacks := g.feedbacks }
              { acc with genCalls := acc.genCalls + 1,
                         summaries := acc.summaries ++ [s],
                         judgeCalls := acc.judgeCalls + 1,
                         grades := acc.grades ++ [g] }
              (by simp; omega)
            simpa [summarizeLoop, hg, h1, hj, hs] using this

/-! ## Helper lemmas about the best-candidate scan -/

/-- The forward scan over `List.range` agrees with its recursive restatement. -/
theorem bestIndex_eq_bestAux (grades : List SummaryGrade) :
    bestIndex grades = bestAux grades grades.length := by
  suffices h : ∀ n, (List.range n).foldl
      (fun best i =>
        if (grades.getD i default).grade ≥ (grades.getD best default).grade then i
        else best) 0 = bestAux grades n from h grades.length
  intro n
  induction n with
  | zero => simp [bestAux]
  | succ m ih =>
    rw [List.range_succ, List.foldl_append, ih]
    simp [bestAux]

/-- The scan over the first `n + 1` indices lands inside them. -/
theorem bestAux_le (grades : List SummaryGrade) : ∀ n, bestAux grades (n + 1) ≤ n := by
  intro n
  induction n with
  | zero => simp [bestAux]
  | succ m ih =>
    have hstep : bestAux grades (m + 2)
        = if (grades.getD (m + 1) default).grade
            ≥ (grades.getD (bestAux grades (m + 1)) default).grade
          then m + 1 else bestAux grades (m + 1) := rfl
    rw [hstep]
    split
    · exact Nat.le_refl _
    · omega

/-- The scanned index carries a maximal grade among the first `n` indices. -/
theorem bestAux_is_max (grades : List SummaryGrade) :
    ∀ n j, j < n →
      (grades.getD j default).grade ≤ (grades.getD (bestAux grades n) default).grade := by
  intro n
  induction n with
  | zero => intro j hj; exact absurd hj (Nat.not_lt_zero j)
  | succ m ih =>
    intro j hj
    simp only [bestAux]
    split
    · rcases Nat.lt_succ_iff_lt_or_eq.mp hj with hjm | hjm
      · exact le_trans (ih j hjm) (by assumption)
      · subst hjm; exact le_refl _
    · rcases Nat.lt_succ_iff_lt_or_eq.mp hj with hjm | hjm
      · exact ih j hjm
      · subst hjm
        exact le_of_lt (lt_of_not_ge (by assumption))

/-- Every index after the scanned one carries a strictly smaller grade: the
`>=` update means the running best is replaced on equality, so the scan settles
on the LAST index achieving the maximum. -/
theorem bestAux_last_max (grades : List SummaryGrade) :
    ∀ n j, bestAux grades n < j → j < n →
      (grades.getD j default).grade < (grades.getD (bestAux grades n) default).grade := by
  intro n
  induction n with
  | zero => intro j _ h2; exact absurd h2 (Nat.not_lt_zero j)
  | succ m ih =>
    intro j h1 h2
    have hstep : bestAux grades (m + 1)
        = if (grades.getD m default).grade ≥ (grades.getD (bestAux grades m) default).grade
          then m else bestAux grades m := rfl
    by_cases h : (grades.getD m default).grade ≥ (grades.getD (bestAux grades m) default).grade
    · rw [hstep, if_pos h] at h1 ⊢
      omega
    · rw [hstep, if_neg h] at h1 ⊢
      rcases Nat.lt_succ_iff_lt_or_eq.mp h2 with hjm | hjm
      · exact ih j h1 hjm
      · subst hjm; exact lt_of_not_ge h

/-! ## Helper lemma about first-match scans -/

/-- A `find?` scan returns the element at the first index whose test holds. -/
theorem find?_first {α : Type} [Inhabited α] (p : α → Bool) :
    ∀ (l : List α) (i : Nat), i < l.length → p (l.getD i default) = true →
      (∀ j, j < i → p (l.getD j default) = false) →
      l.find? p = some (l.getD i default) := by
  intro l
  induction l with
  | nil => intro i hi _ _; exact absurd hi (by simp)
  | cons a t ih =>
    intro i hi hp hfirst
    cases i with
    | zero =>
      rw [List.getD_cons_zero] at hp ⊢
      exact List.find?_cons_of_pos t hp
    | succ i =>
      have ha : p a = false := by
        have := hfirst 0 (Nat.succ_pos i)
        rwa [List.getD_cons_zero] at this
      rw [List.find?_cons_of_neg t (by simp [ha]), List.getD_cons_succ]
      refine ih i (by simpa using hi) (by rwa [List.getD_cons_succ] at hp) ?_
      intro j hj
      have := hfirst (j + 1) (by omega)
      rwa [List.getD_cons_succ] at this

/-! ## Claim theorems: the refinement loop -/

/-- Claim C7: the refinement loop always terminates (it is a total function in
the embedding, with fuel `iterations - i`): its body — and hence the
generator — runs at most `max N 1` times for requested iteration count `N`,
and a generator failure consumes an iteration slot exactly like a success
(the counter advances before the retry): with an always-failing generator the
loop still makes exactly `effIterations N` generator calls (0 when N is
negative), never more. -/
theorem c7_loop_budget (gen : SummaryInput → Option SummaryOutput)
    (judge : SummaryGradeCtx → Option SummaryGrade) (ctx : SummaryInput) :
    (runLoop gen judge ctx).genCalls ≤ (max ctx.iterations 1).toNat
    ∧ (runLoop (fun _ => none) judge ctx).genCalls
        = (effIterations ctx.iterations).toNat := by
  constructor
  · have h := summarizeLoop_genCalls_le gen judge (effIterations ctx.iterations)
      (effIterations ctx.iterations).toNat ctx {}
    have h2 : (effIterations ctx.iterations).toNat ≤ (max ctx.iterations 1).toNat := by
      rcases eq_or_ne ctx.iterations 0 with h0 | h0
      · rw [show effIterations ctx.iterations = 1 by simp [effIterations, h0], h0]
        decide
      · rw [show effIterations ctx.iterations = ctx.iterations by simp [effIterations, h0]]
        exact Int.toNat_le_toNat (le_max_left _ _)
    simp only [runLoop] at *
    omega
  · have h := summarizeLoop_gen_none judge (effIterations ctx.iterations)
      (effIterations ctx.iterations).toNat ctx {}
    simp [runLoop, h]

/-- Claim C6: with a requested iteration count of 1 (or 0, which is treated as
1), a successful first generation makes `summarize_one_type` return exactly
that one candidate as best, with an empty grades list, and the grader is never
invoked. -/
theorem c6_single_iteration (gen : SummaryInput → Option SummaryOutput)
    (judge : SummaryGradeCtx → Option SummaryGrade) (ctx : SummaryInput)
    (s : SummaryOutput) (hN : ctx.iterations = 0 ∨ ctx.iterations = 1)
    (hg : gen ctx = some s) :
    summarize_one_type gen judge ctx
      = Except.ok { summary := s, grades := [], summaries := [s],
                    summary_type := ctx.summary_type }
    ∧ (runLoop gen judge ctx).judgeCalls = 0 := by
  have heff : effIterations ctx.iterations = 1 := by
    rcases hN with h | h <;> simp [effIterations, h]
  have hrun : runLoop gen judge ctx
      = { summaries := [s], grades := [], genCalls := 1, judgeCalls := 0 } := by
    simp [runLoop, heff, summarizeLoop, hg]
  refine ⟨?_, by simp [hrun]⟩
  simp [summarize_one_type, hrun]

/-- Claim C6 witness: a concrete one-iteration run. -/
theorem c6_single_iteration_witness :
    summarize_one_type tagGen flatJudge { content := "c", iterations := 1 }
      = Except.ok
          { summary := { short_version := "s", description := "d", title := "t",
                         tags := [], language := "en" }
            grades := []
            summaries := [{ short_version := "s", description := "d", title := "t",
                            tags := [], language := "en" }]
            summary_type := .machine }
    ∧ (runLoop tagGen flatJudge { content := "c", iterations := 1 }).judgeCalls = 0 :=
  c6_single_iteration tagGen flatJudge { content := "c", iterations := 1 } _
    (Or.inr rfl) rfl

/-- Claim C5: `summarize_one_type` fails with the fatal "No summaries
generated" error exactly when the loop produced no candidate; a `none` grading
result merely ends the loop early and the candidate generated up to that point
still yields a normal result (for any non-negative requested count, covering
both the no-grading N = 1 path and the graded N ≥ 2 path); and with a
generator that always fails the call fails with the fatal error. -/
theorem c5_failure_semantics (gen : SummaryInput → Option SummaryOutput)
    (judge : SummaryGradeCtx → Option SummaryGrade) (ctx : SummaryInput) :
    (summarize_one_type gen judge ctx = Except.error "No summaries generated"
      ↔ (runLoop gen judge ctx).summaries = [])
    ∧ (∀ s : SummaryOutput, 0 ≤ ctx.iterations → gen ctx = some s →
        summarize_one_type gen (fun _ => none) ctx
          = Except.ok { summary := s, grades := [], summaries := [s],
                        summary_type := ctx.summary_type })
    ∧ summarize_one_type (fun _ => none) judge ctx
        = Except.error "No summaries generated" := by
  refine ⟨?_, ?_, ?_⟩
  · unfold summarize_one_type
    rcases h : (runLoop gen judge ctx).summaries with _ | ⟨a, t⟩
    · simp [h]
    · simp [h]
  · intro s hpos hg
    have heff : 1 ≤ effIterations ctx.iterations := by
      unfold effIterations
      split <;> omega
    obtain ⟨k, hk⟩ : ∃ k, (effIterations ctx.iterations).toNat = k + 1 :=
      ⟨(effIterations ctx.iterations).toNat - 1, by omega⟩
    by_cases h1 : effIterations ctx.iterations = 1
    · have hrun : runLoop gen (fun _ => none) ctx
          = { summaries := [s], grades := [], genCalls := 1, judgeCalls := 0 } := by
        simp [runLoop, h1, summarizeLoop, hg]
      simp [summarize_one_type, hrun]
    · have hrun : runLoop gen (fun _ => none) ctx
          = { summaries := [s], grades := [], genCalls := 1, judgeCalls := 1 } := by
        rw [runLoop]
        rw [hk]
        simp [summarizeLoop, hg, h1]
      simp [summarize_one_type, hrun]
  · have h := summarizeLoop_gen_none judge (effIterations ctx.iterations)
      (effIterations ctx.iterations).toNat ctx {}
    have hrun : runLoop (fun _ => none) judge ctx
        = { summaries := [], grades := [],
            genCalls := (effIterations ctx.iterations).toNat, judgeCalls := 0 } := by
      rw [runLoop]
      rw [h]
      simp
    simp [summarize_one_type, hrun]

/-- Claim C5 witness: a run whose grader always fails still returns the first
generated candidate normally, and an always-failing generator yields the
fatal error. -/
theorem c5_failure_semantics_witness :
    summarize_one_type tagGen (fun _ => none) twoIterCtx
      = Except.ok
          { summary := { short_version := "s", description := "d", title := "t",
                         tags := [], language := "en" }
            grades := []
            summaries := [{ short_version := "s", description := "d", title := "t",
                            tags := [], language := "en" }]
            summary_type := .machine }
    ∧ summarize_one_type (fun _ => none) flatJudge twoIterCtx
        = Except.error "No summaries generated" :=
  ⟨(c5_failure_semantics tagGen flatJudge twoIterCtx).2.1 _ (by decide) rfl,
   (c5_failure_semantics tagGen flatJudge twoIterCtx).2.2⟩

/-- Claim C4: the loop stops early exactly when the returned grade is ≥ 8 or
(the missing-entity list is empty and the grade is > 6); with a grader always
answering grade 9 the loop stops after the first generation and grading for
any requested count N > 1; and with the grade sequence [5, 8, 6] the loop
stops after the second iteration and the second candidate is best. -/
theorem c4_early_stop (gen : SummaryInput → Option SummaryOutput)
    (judge : SummaryGradeCtx → Option SummaryGrade) (ctx : SummaryInput) :
    (∀ g : SummaryGrade,
      stopEarly g = true ↔ (8 ≤ g.grade ∨ (g.missing_entities = [] ∧ 6 < g.grade)))
    ∧ (∀ s : SummaryOutput, 1 < ctx.iterations → gen ctx = some s →
        (∀ gctx, ∃ gr, judge gctx = some gr ∧ gr.grade = 9) →
        (runLoop gen judge ctx).summaries = [s]
        ∧ (runLoop gen judge ctx).grades.length = 1
        ∧ (runLoop gen judge ctx).genCalls = 1
        ∧ (runLoop gen judge ctx).judgeCalls = 1)
    ∧ summarize_one_type tagGen seqJudge threeIterCtx = Except.ok seqResult := by
  refine ⟨?_, ?_, rfl⟩
  · intro g
    simp [stopEarly, Bool.or_eq_true, Bool.and_eq_true, decide_eq_true_eq,
      beq_iff_eq, List.length_eq_zero]
  · intro s hN hg h9
    have h0 : ctx.iterations ≠ 0 := by omega
    have heff : effIterations ctx.iterations = ctx.iterations := by
      simp [effIterations, h0]
    have h1 : ¬(ctx.iterations = 1) := by omega
    obtain ⟨k, hk⟩ : ∃ k, (effIterations ctx.iterations).toNat = k + 1 :=
      ⟨(effIterations ctx.iterations).toNat - 1, by rw [heff]; omega⟩
    obtain ⟨gr, hj, hgr⟩ := h9 (mkGradeCtx s ctx.content)
    have hstop : stopEarly gr = true := by simp [stopEarly, hgr]
    have hrun : runLoop gen judge ctx
        = { summaries := [s], grades := [gr], genCalls := 1, judgeCalls := 1 } := by
      rw [runLoop, hk, heff]
      simp [summarizeLoop, hg, h1, hj, hstop]
    rw [hrun]
    exact ⟨rfl, rfl, rfl, rfl⟩

/-- Claim C4 witness: a concrete always-grade-9 run with N = 3 stops after one
generation and one grading. -/
theorem c4_early_stop_witness :
    (runLoop tagGen
      (fun _ => some { grade := 9, feedbacks := [], grade_reasoning := "r",
                       missing_entities := [] }) threeIterCtx).summaries
      = [{ short_version := "s", description := "d", title := "t",
           tags := [], language := "en" }]
    ∧ (runLoop tagGen
        (fun _ => some { grade := 9, feedbacks := [], grade_reasoning := "r",
                         missing_entities := [] }) threeIterCtx).grades.length = 1
    ∧ (runLoop tagGen
        (fun _ => some { grade := 9, feedbacks := [], grade_reasoning := "r",
                         missing_entities := [] }) threeIterCtx).genCalls = 1
    ∧ (runLoop tagGen
        (fun _ => some { grade := 9, feedbacks := [], grade_reasoning := "r",
                         missing_entities := [] }) threeIterCtx).judgeCalls = 1 :=
  (c4_early_stop tagGen
    (fun _ => some { grade := 9, feedbacks := [], grade_reasoning := "r",
                     missing_entities := [] }) threeIterCtx).2.1
    _ (by decide) rfl (fun _ => ⟨_, rfl, rfl⟩)

/-- Claim C1 counterexample: a run with two candidates both graded 5 — the
grades list is non-empty with its maximum first reached at index 0, yet the
returned best is the candidate at index 1, which differs from the index-0
candidate.  A later candidate with an equal grade DOES replace the running
best, contradicting the claimed earliest-index tie-break. -/
theorem c1_tiebreak_counterexample :
    summarize_one_type tagGen flatJudge twoIterCtx = Except.ok tieResult
    ∧ tieResult.grades.map SummaryGrade.grade = [5, 5]
    ∧ tieResult.summary = tieResult.summaries.getD 1 default
    ∧ tieResult.summary ≠ tieResult.summaries.getD 0 default :=
  ⟨rfl, rfl, rfl, by decide⟩

/-- Claim C1 (amended): whenever `summarize_one_type` succeeds with a
non-empty grades list, the returned best candidate is the one selected by the
`>=` scan; its grade is maximal, and every LATER grade is strictly smaller —
i.e. ties are broken towards the LATEST index (a later candidate with an
equal grade replaces the running best). -/
theorem c1_best_candidate (gen : SummaryInput → Option SummaryOutput)
    (judge : SummaryGradeCtx → Option SummaryGrade) (ctx : SummaryInput)
    (r : InternalSummaryResult)
    (h : summarize_one_type gen judge ctx = Except.ok r) (hne : r.grades ≠ []) :
    bestIndex r.grades < r.grades.length
    ∧ r.grades.length ≤ r.summaries.length
    ∧ r.summary = r.summaries.getD (bestIndex r.grades) default
    ∧ (∀ j, j < r.grades.length →
        (r.grades.getD j default).grade
          ≤ (r.grades.getD (bestIndex r.grades) default).grade)
    ∧ (∀ j, bestIndex r.grades < j → j < r.grades.length →
        (r.grades.getD j default).grade
          < (r.grades.getD (bestIndex r.grades) default).grade) := by
  have hlen0 := summarizeLoop_len_inv gen judge (effIterations ctx.iterations)
    (effIterations ctx.iterations).toNat ctx {} (by simp)
  unfold summarize_one_type at h
  by_cases he : (runLoop gen judge ctx).summaries.isEmpty
  · rw [if_pos he] at h
    exact absurd h (by simp)
  · rw [if_neg he] at h
    injection h with h
    have hgr : r.grades = (runLoop gen judge ctx).grades := by rw [← h]
    have hsm : r.summaries = (runLoop gen judge ctx).summaries := by rw [← h]
    have hne2 : (runLoop gen judge ctx).grades ≠ [] := by rw [← hgr]; exact hne
    have hsum : r.summary
        = (runLoop gen judge ctx).summaries.getD
            (bestIndex (runLoop gen judge ctx).grades) default := by
      rw [← h]
      dsimp only
      rw [if_neg (by simp [List.isEmpty_iff, hne2])]
    have hlen : (runLoop gen judge ctx).grades.length
        ≤ (runLoop gen judge ctx).summaries.length := by
      rw [runLoop]
      exact hlen0
    have hpos : 0 < (runLoop gen judge ctx).grades.length := List.length_pos.mpr hne2
    obtain ⟨m, hm⟩ : ∃ m, (runLoop gen judge ctx).grades.length = m + 1 :=
      ⟨(runLoop gen judge ctx).grades.length - 1, by omega⟩
    have hb : bestIndex (runLoop gen judge ctx).grades
        < (runLoop gen judge ctx).grades.length := by
      rw [bestIndex_eq_bestAux, hm]
      have := bestAux_le (runLoop gen judge ctx).grades m
      omega
    refine ⟨by rw [hgr]; exact hb, by rw [hgr, hsm]; exact hlen,
      by rw [hsum, hgr, hsm], ?_, ?_⟩
    · intro j hj
      rw [hgr] at hj ⊢
      rw [bestIndex_eq_bestAux]
      exact bestAux_is_max _ _ j hj
    · intro j h1 h2
      rw [hgr] at h1 h2 ⊢
      rw [bestIndex_eq_bestAux] at h1 ⊢
      exact bestAux_last_max _ _ j h1 h2

/-- Claim C1 (amended) witness: the tied run instantiates the amended
selection rule — the scan index is 1, in bounds, maximal, and the returned
summary is the candidate at that index. -/
theorem c1_best_candidate_witness :
    bestIndex tieResult.grades < tieResult.grades.length
    ∧ tieResult.grades.length ≤ tieResult.summaries.length
    ∧ tieResult.summary = tieResult.summaries.getD (bestIndex tieResult.grades) default
    ∧ (tieResult.grades.getD 0 default).grade
        ≤ (tieResult.grades.getD (bestIndex tieResult.grades) default).grade := by
  have h := c1_best_candidate tagGen flatJudge twoIterCtx tieResult rfl (by decide)
  exact ⟨h.1, h.2.1, h.2.2.1, h.2.2.2.1 0 (by decide)⟩

/-! ## Claim theorems: the configuration resolver -/

/-- Claim C2 counterexample: with an alias table mapping "fast" to
"gemini/pro" attached and a default config whose model is "fast",
`update_config` returns a record whose model is still "fast", not the
alias-resolved "gemini/pro" — the resolved name is not written back. -/
theorem c2_alias_counterexample :
    (update_config (some fastAlias) none fastDefault none).model = "fast"
    ∧ fastAlias "fast" = "gemini/pro"
    ∧ ("fast" : String) ≠ "gemini/pro" :=
  ⟨rfl, rfl, by decide⟩

/-- Claim C2 (amended): `update_config` passes the model name through the
alias resolver only to drive provider prefix matching; the final validated
record's model field carries the originally supplied name (the caller
override's if set, else the default template's) and does not depend on the
alias resolver at all, while — absent an explicit client override — the
resolved name determines the client through the prefix-mapping table. -/
theorem c2_model_not_alias_resolved (ar ar2 : Option (String → String))
    (pc : Option ModelProvidersConfig) (dc : AgentConfig)
    (conf : Option AgentConfigOverride) :
    (update_config ar pc dc conf).model = ((conf.getD {}).model.getD dc.model)
    ∧ (update_config ar pc dc conf).model = (update_config ar2 pc dc conf).model
    ∧ ((conf.getD {}).client = none →
        (update_config ar pc dc conf).client
          = match _find_provider_mapping
              (_resolve_model_name ar ((conf.getD {}).model.getD dc.model))
              (pc.getD {}) with
            | some m => m.client
            | none => (pc.getD {}).default.client) := by
  refine ⟨rfl, rfl, ?_⟩
  intro h
  simp [update_config, _apply_provider_setting, h]

/-- Claim C2 (amended) witness: the "fast" alias example — the model field
keeps "fast" while the client is resolved from the prefix table using the
resolved name "gemini/pro". -/
theorem c2_model_not_alias_resolved_witness :
    (update_config (some fastAlias)
      (some { mappings := [{ pfx := "gemini/", client := .gemini, api_mode := .chat }] })
      fastDefault none).model = "fast"
    ∧ (update_config (some fastAlias)
        (some { mappings := [{ pfx := "gemini/", client := .gemini, api_mode := .chat }] })
        fastDefault none).client = ClientKind.gemini := by
  have h := c2_model_not_alias_resolved (some fastAlias) none
    (some { mappings := [{ pfx := "gemini/", client := .gemini, api_mode := .chat }] })
    fastDefault none
  exact ⟨h.1, (h.2.2 rfl).trans (by decide)⟩

/-- Claim C3: for every model name, caller override set and prefix table,
`update_config` resolves `client` and `api_mode` by precedence: an explicit
caller override wins; else the first mapping in declaration order whose
prefix starts the (resolved) model name; else the table's declared default —
in particular an empty mapping table always yields the declared default. -/
theorem c3_provider_setting_resolution (ar : Option (String → String))
    (pc : ModelProvidersConfig) (dc : AgentConfig) (o : AgentConfigOverride)
    (resolved : String)
    (hres : resolved = _resolve_model_name ar (o.model.getD dc.model)) :
    (∀ c, o.client = some c → (update_config ar (some pc) dc (some o)).client = c)
    ∧ (∀ a, o.api_mode = some a → (update_config ar (some pc) dc (some o)).api_mode = a)
    ∧ (o.client = none → ∀ m, _find_provider_mapping resolved pc = some m →
        (update_config ar (some pc) dc (some o)).client = m.client)
    ∧ (o.api_mode = none → ∀ m, _find_provider_mapping resolved pc = some m →
        (update_config ar (some pc) dc (some o)).api_mode = m.api_mode)
    ∧ (o.client = none → _find_provider_mapping resolved pc = none →
        (update_config ar (some pc) dc (some o)).client = pc.default.client)
    ∧ (o.api_mode = none → _find_provider_mapping resolved pc = none →
        (update_config ar (some pc) dc (some o)).api_mode = pc.default.api_mode)
    ∧ (∀ i, i < pc.mappings.length →
        pyStartsWith resolved (pc.mappings.getD i default).pfx = true →
        (∀ j, j < i → pyStartsWith resolved (pc.mappings.getD j default).pfx = false) →
        _find_provider_mapping resolved pc = some (pc.mappings.getD i default))
    ∧ (pc.mappings = [] → _find_provider_mapping resolved pc = none) := by
  subst hres
  refine ⟨?_, ?_, ?_, ?_, ?_, ?_, ?_, ?_⟩
  · intro c hc
    simp [update_config, hc]
  · intro a ha
    simp [update_config, ha]
  · intro hc m hm
    simp [update_config, _apply_provider_setting, hc, hm]
  · intro ha m hm
    simp [update_config, _apply_provider_setting, ha, hm]
  · intro hc hm
    simp [update_config, _apply_provider_setting, hc, hm]
  · intro ha hm
    simp [update_config, _apply_provider_setting, ha, hm]
  · intro i hi hp hfirst
    exact find?_first _ pc.mappings i hi hp hfirst
  · intro hmap
    simp [_find_provider_mapping, hmap]

/-- Claim C3 witness: a table with a "gemini/" mapping first and a catch-all
second — the first matching prefix decides the client when no override is
given. -/
theorem c3_provider_setting_resolution_witness :
    _find_provider_mapping "gemini/pro"
      { mappings := [{ pfx := "gemini/", client := .gemini, api_mode := .chat },
                     { pfx := "", client := .litellm, api_mode := .response }] }
      = some { pfx := "gemini/", client := .gemini, api_mode := .chat }
    ∧ (update_config none
        (some { mappings := [{ pfx := "gemini/", client := .gemini, api_mode := .chat },
                             { pfx := "", client := .litellm, api_mode := .response }] })
        { model := "gemini/pro" } (some {})).client = ClientKind.gemini := by
  have h := c3_provider_setting_resolution none
    { mappings := [{ pfx := "gemini/", client := .gemini, api_mode := .chat },
                   { pfx := "", client := .litellm, api_mode := .response }] }
    { model := "gemini/pro" } {} "gemini/pro" rfl
  have hfind := h.2.2.2.2.2.2.1 0 (by decide) (by decide)
    (fun j hj => absurd hj (Nat.not_lt_zero j))
  exact ⟨hfind, h.2.2.1 rfl _ hfind⟩

/-! ## Helper lemmas about alias-table updates -/

/-- A table with none of its keys equal to `k` has no binding for `k`. -/
theorem lookupTable_eq_none (t : AliasTable) (k : String)
    (h : ∀ q ∈ t, q.1 ≠ k) : lookupTable t k = none := by
  have hfind : t.find? (fun p => p.1 == k) = none := by
    rw [List.find?_eq_none]
    intro q hq
    simp [h q hq]
  rw [lookupTable, hfind]
  rfl

/-- Writing key `k` in place binds it to the written value. -/
theorem lookupTable_map_write (k v : String) :
    ∀ t : AliasTable, t.any (fun p => p.1 == k) = true →
      lookupTable (t.map (fun p => if p.1 == k then (p.1, v) else p)) k = some v := by
  intro t
  induction t with
  | nil => intro h; simp at h
  | cons a t ih =>
    intro h
    cases ha : (a.1 == k) with
    | true =>
      have hif : (if a.1 == k then (a.1, v) else a) = (a.1, v) := by
        simp [ha]
      rw [List.map_cons, hif, lookupTable,
        @List.find?_cons_of_pos _ (fun p => p.1 == k) (a.1, v) _ ha]
      rfl
    | false =>
      have ht : t.any (fun p => p.1 == k) = true := by
        rw [List.any_cons, ha] at h
        simpa using h
      have hif : (if a.1 == k then (a.1, v) else a) = a := by
        simp [ha]
      have hpa : ¬((fun p : String × String => p.1 == k) a = true) := by simp [ha]
      rw [List.map_cons, hif, lookupTable,
        @List.find?_cons_of_neg _ (fun p => p.1 == k) a _ hpa]
      exact ih ht

/-- `setItem` binds the written key to the written value. -/
theorem lookupTable_setItem_self (t : AliasTable) (k v : String) :
    lookupTable (setItem t k v) k = some v := by
  unfold setItem
  split
  · rename_i hany
    exact lookupTable_map_write k v t hany
  · rename_i hany
    have hnone : t.find? (fun p => p.1 == k) = none := by
      rw [List.find?_eq_none]
      intro q hq hqk
      exact hany (List.any_eq_true.mpr ⟨q, hq, hqk⟩)
    rw [lookupTable, List.find?_append, hnone,
      @List.find?_cons_of_pos _ (fun p => p.1 == k) (k, v) [] (by simp)]
    rfl

/-- An in-place write of key `k` leaves every other key's binding unchanged. -/
theorem lookupTable_map_write_other (k v k' : String) (hne : k' ≠ k) :
    ∀ t : AliasTable,
      lookupTable (t.map (fun p => if p.1 == k then (p.1, v) else p)) k'
        = lookupTable t k' := by
  intro t
  induction t with
  | nil => rfl
  | cons a t ih =>
    cases ha : (a.1 == k) with
    | true =>
      have ha' : a.1 = k := by simpa using ha
      have hak : ¬((fun p : String × String => p.1 == k') (a.1, v) = true) := by
        simp only [beq_iff_eq]
        rw [ha']
        exact fun hcon => hne hcon.symm
      have hak2 : ¬((fun p : String × String => p.1 == k') a = true) := by
        simp only [beq_iff_eq]
        rw [ha']
        exact fun hcon => hne hcon.symm
      have hif : (if a.1 == k then (a.1, v) else a) = (a.1, v) := by
        simp [ha]
      rw [List.map_cons, hif, lookupTable,
        @List.find?_cons_of_neg _ (fun p => p.1 == k') (a.1, v) _ hak]
      rw [show lookupTable (a :: t) k' = lookupTable t k' from by
        rw [lookupTable, @List.find?_cons_of_neg _ (fun p => p.1 == k') a _ hak2]
        rfl]
      exact ih
    | false =>
      have hif : (if a.1 == k then (a.1, v) else a) = a := by
        simp [ha]
      rw [List.map_cons, hif]
      cases hak : (a.1 == k') with
      | true =>
        rw [lookupTable, @List.find?_cons_of_pos _ (fun p => p.1 == k') a _ hak,
          lookupTable, @List.find?_cons_of_pos _ (fun p => p.1 == k') a _ hak]
      | false =>
        have hak2 : ¬((fun p : String × String => p.1 == k') a = true) := by simp [hak]
        rw [lookupTable, @List.find?_cons_of_neg _ (fun p => p.1 == k') a _ hak2]
        rw [show lookupTable (a :: t) k' = lookupTable t k' from by
          rw [lookupTable, @List.find?_cons_of_neg _ (fun p => p.1 == k') a _ hak2]
          rfl]
        exact ih

/-- `setItem` leaves every other key's binding unchanged. -/
theorem lookupTable_setItem_other (t : AliasTable) (k v k' : String)
    (hne : k' ≠ k) : lookupTable (setItem t k v) k' = lookupTable t k' := by
  unfold setItem
  split
  · exact lookupTable_map_write_other k v k' hne t
  · rw [lookupTable, List.find?_append]
    have hkk : ¬((fun p : String × String => p.1 == k') (k, v) = true) := by
      simp only [beq_iff_eq]
      exact fun hcon => hne hcon.symm
    rw [@List.find?_cons_of_neg _ (fun p => p.1 == k') (k, v) [] hkk]
    rcases hf : t.find? (fun p => p.1 == k') with _ | q
    · simp [lookupTable, hf]
    · simp [lookupTable, hf]

/-- Updating a copy of `g` with the entries of a dict `o` (unique keys) gives
Python's `dict.update` semantics: `o`'s binding when present, else `g`'s. -/
theorem dictUpdate_lookup (k : String) :
    ∀ (o g : AliasTable), (o.map Prod.fst).Nodup →
      lookupTable (dictUpdate g o) k
        = match lookupTable o k with
          | some v => some v
          | none => lookupTable g k := by
  intro o
  induction o with
  | nil => intro g _; rfl
  | cons p o ih =>
    intro g hnd
    rw [List.map_cons, List.nodup_cons] at hnd
    have hstep : dictUpdate g (p :: o) = dictUpdate (setItem g p.1 p.2) o := rfl
    rw [hstep, ih _ hnd.2]
    by_cases hk : k = p.1
    · have ho : lookupTable o k = none := by
        apply lookupTable_eq_none
        intro q hq hqk
        exact hnd.1 (by rw [← hk, ← hqk]; exact List.mem_map_of_mem Prod.fst hq)
      have hbeq : ((fun q : String × String => q.1 == k) p) = true := by
        simp [beq_iff_eq, hk.symm]
      have hp1 : lookupTable (p :: o) k = some p.2 := by
        rw [lookupTable, @List.find?_cons_of_pos _ (fun q => q.1 == k) p _ hbeq]
        rfl
      simp only [ho, hp1]
      rw [hk]
      exact lookupTable_setItem_self g p.1 p.2
    · have hbeq : ¬((fun q : String × String => q.1 == k) p = true) := by
        simp only [beq_iff_eq]
        exact fun hcon => hk hcon.symm
      have hp1 : lookupTable (p :: o) k = lookupTable o k := by
        rw [lookupTable, @List.find?_cons_of_neg _ (fun q => q.1 == k) p _ hbeq]
        rfl
      rw [hp1]
      rcases hv : lookupTable o k with _ | w
      · simp only [hv]
        exact lookupTable_setItem_other g p.1 p.2 k hk
      · simp only [hv]

/-! ## Helper lemmas about per-agent config updates -/

/-- Lookup at a cons whose head carries the key. -/
theorem lookupAgent_cons_pos (x : String × AgentConfig) (t : List (String × AgentConfig))
    (k : String) (hx : (x.1 == k) = true) : lookupAgent (x :: t) k = some x.2 := by
  rw [lookupAgent, @List.find?_cons_of_pos _ (fun p => p.1 == k) x t hx]
  rfl

/-- Lookup at a cons whose head does not carry the key. -/
theorem lookupAgent_cons_neg (x : String × AgentConfig) (t : List (String × AgentConfig))
    (k : String) (hx : (x.1 == k) = false) : lookupAgent (x :: t) k = lookupAgent t k := by
  rw [lookupAgent, @List.find?_cons_of_neg _ (fun p => p.1 == k) x t (by simp [hx])]
  rfl

/-- A successful agent lookup means some entry carries the key. -/
theorem lookupAgent_any (rc : List (String × AgentConfig)) (k : String)
    (c : AgentConfig) (h : lookupAgent rc k = some c) :
    rc.any (fun p => p.1 == k) = true := by
  rw [lookupAgent] at h
  rcases Option.map_eq_some'.mp h with ⟨q, hq, _⟩
  have hpq := @List.find?_some _ (fun p => p.1 == k) q rc hq
  exact List.any_eq_true.mpr ⟨q, List.mem_of_find?_eq_some hq, hpq⟩

/-- Rewriting the model of the entries keyed `k` maps the looked-up config to
the same record with only `model` replaced. -/
theorem lookupAgent_map_write (k m : String) :
    ∀ (rc : List (String × AgentConfig)) (c : AgentConfig), lookupAgent rc k = some c →
      lookupAgent (rc.map (fun p => if p.1 == k then (p.1, { p.2 with model := m }) else p)) k
        = some { c with model := m } := by
  intro rc
  induction rc with
  | nil => intro c h; simp [lookupAgent] at h
  | cons a t ih =>
    intro c h
    cases ha : (a.1 == k) with
    | true =>
      have hc : a.2 = c := by
        rw [lookupAgent_cons_pos a t k ha] at h
        simpa using h
      subst hc
      have hif : (if a.1 == k then (a.1, { a.2 with model := m }) else a)
          = (a.1, { a.2 with model := m }) := by
        simp [ha]
      rw [List.map_cons, hif]
      exact lookupAgent_cons_pos (a.1, { a.2 with model := m })
        (t.map (fun p => if p.1 == k then (p.1, { p.2 with model := m }) else p)) k ha
    | false =>
      have h2 : lookupAgent t k = some c := by
        rw [lookupAgent_cons_neg a t k ha] at h
        exact h
      have hif : (if a.1 == k then (a.1, { a.2 with model := m }) else a) = a := by
        simp [ha]
      rw [List.map_cons, hif, lookupAgent_cons_neg a
        (t.map (fun p => if p.1 == k then (p.1, { p.2 with model := m }) else p)) k ha]
      exact ih c h2

/-- `setAgentModel` on an agent present in the table rewrites only its model. -/
theorem lookupAgent_setAgentModel (rc : List (String × AgentConfig)) (k m : String)
    (c : AgentConfig) (h : lookupAgent rc k = some c) :
    lookupAgent (setAgentModel rc k m) k = some { c with model := m } := by
  rw [setAgentModel, if_pos (lookupAgent_any rc k c h)]
  exact lookupAgent_map_write k m rc c h

/-! ## Claim theorems: dynamic per-run configuration -/

/-- Claim C8: `_apply_dynamic_config` never mutates shared state — the global
alias table and the class-level template are returned exactly as read — and
when run-scoped aliases are supplied the fresh per-run resolver is backed by
a merged COPY: its bindings are the run-scoped ones where present, falling
back to the global ones, while the global table itself is unchanged. -/
theorem c8_no_shared_state_mutation (g : WorkflowGlobals) (cur : AliasTable)
    (dc : DynamicAgentConfig) :
    ((_apply_dynamic_config g cur dc).globals.aliases = g.aliases)
    ∧ ((_apply_dynamic_config g cur dc).globals.template = g.template)
    ∧ (dc.aliases = [] → (_apply_dynamic_config g cur dc).alias_resolver = cur)
    ∧ (dc.aliases ≠ [] → (dc.aliases.map Prod.fst).Nodup → ∀ k,
        lookupTable (_apply_dynamic_config g cur dc).alias_resolver k
          = match lookupTable dc.aliases k with
            | some v => some v
            | none => lookupTable g.aliases k) := by
  refine ⟨rfl, rfl, ?_, ?_⟩
  · intro h
    simp [_apply_dynamic_config, h]
  · intro h hnd k
    have hres : (_apply_dynamic_config g cur dc).alias_resolver
        = dictUpdate g.aliases dc.aliases := by
      simp [_apply_dynamic_config, List.isEmpty_eq_false.mpr h]
    rw [hres]
    exact dictUpdate_lookup k dc.aliases g.aliases hnd

/-- Claim C8 witness: the merged-alias scenario of the repository's own test —
a run-scoped alias is added, an overlapping key takes the run-scoped value, a
purely global alias still resolves, and the global table is unchanged. -/
theorem c8_no_shared_state_mutation_witness :
    (_apply_dynamic_config
        { aliases := [("global-alias", "global-value"), ("powerful-model", "global-gpt-4")],
          template := [] } []
        { aliases := [("fast-model", "gpt-3.5-turbo"), ("powerful-model", "gpt-4o")] }).globals.aliases
      = [("global-alias", "global-value"), ("powerful-model", "global-gpt-4")]
    ∧ lookupTable (_apply_dynamic_config
        { aliases := [("global-alias", "global-value"), ("powerful-model", "global-gpt-4")],
          template := [] } []
        { aliases := [("fast-model", "gpt-3.5-turbo"), ("powerful-model", "gpt-4o")] }).alias_resolver
        "global-alias" = some "global-value"
    ∧ lookupTable (_apply_dynamic_config
        { aliases := [("global-alias", "global-value"), ("powerful-model", "global-gpt-4")],
          template := [] } []
        { aliases := [("fast-model", "gpt-3.5-turbo"), ("powerful-model", "gpt-4o")] }).alias_resolver
        "fast-model" = some "gpt-3.5-turbo"
    ∧ lookupTable (_apply_dynamic_config
        { aliases := [("global-alias", "global-value"), ("powerful-model", "global-gpt-4")],
          template := [] } []
        { aliases := [("fast-model", "gpt-3.5-turbo"), ("powerful-model", "gpt-4o")] }).alias_resolver
        "powerful-model" = some "gpt-4o" := by
  have h := c8_no_shared_state_mutation
    { aliases := [("global-alias", "global-value"), ("powerful-model", "global-gpt-4")],
      template := [] } []
    { aliases := [("fast-model", "gpt-3.5-turbo"), ("powerful-model", "gpt-4o")] }
  refine ⟨h.1, ?_, ?_, ?_⟩
  · exact (h.2.2.2 (by decide) (by decide) "global-alias").trans (by decide)
  · exact (h.2.2.2 (by decide) (by decide) "fast-model").trans (by decide)
  · exact (h.2.2.2 (by decide) (by decide) "powerful-model").trans (by decide)

/-- Claim C9: a per-agent dynamic override for an agent present in the base
template (with no global model override) changes only that agent's `model`
field; client, api_key, api_mode, max_input_tokens, base_url, model_settings
and name are all identical to the base template's values. -/
theorem c9_per_agent_override_frame (g : WorkflowGlobals) (cur : AliasTable)
    (al : AliasTable) (agent_name : String) (mi : ModelInfo) (c : AgentConfig)
    (h : lookupAgent g.template agent_name = some c) :
    lookupAgent (_apply_dynamic_config g cur
        { model := none, aliases := al, agents := [(agent_name, mi)] }).agentsconf agent_name
      = some { c with model := mi.model }
    ∧ ({ c with model := mi.model } : AgentConfig).model = mi.model
    ∧ ({ c with model := mi.model } : AgentConfig).client = c.client
    ∧ ({ c with model := mi.model } : AgentConfig).api_key = c.api_key
    ∧ ({ c with model := mi.model } : AgentConfig).api_mode = c.api_mode
    ∧ ({ c with model := mi.model } : AgentConfig).max_input_tokens = c.max_input_tokens
    ∧ ({ c with model := mi.model } : AgentConfig).base_url = c.base_url
    ∧ ({ c with model := mi.model } : AgentConfig).model_settings = c.model_settings
    ∧ ({ c with model := mi.model } : AgentConfig).name = c.name := by
  refine ⟨?_, rfl, rfl, rfl, rfl, rfl, rfl, rfl, rfl⟩
  have hconf : (_apply_dynamic_config g cur
      { model := none, aliases := al, agents := [(agent_name, mi)] }).agentsconf
      = setAgentModel g.template agent_name mi.model := rfl
  rw [hconf]
  exact lookupAgent_setAgentModel g.template agent_name mi.model c h

/-- Claim C9 witness: overriding only Agent1's model leaves its client and
api_key from the base template intact. -/
theorem c9_per_agent_override_frame_witness :
    lookupAgent (_apply_dynamic_config
        { aliases := [],
          template := [("Agent1",
            { model := "default-model-1", client := .openai,
              api_key := some "agent1-key", name := "Agent1" })] } []
        { model := none, aliases := [],
          agents := [("Agent1", { model := "custom-model" })] }).agentsconf "Agent1"
      = some { model := "custom-model", client := .openai,
               api_key := some "agent1-key", name := "Agent1" } := by
  have h := c9_per_agent_override_frame
    { aliases := [],
      template := [("Agent1",
        { model := "default-model-1", client := .openai,
          api_key := some "agent1-key", name := "Agent1" })] }
    [] [] "Agent1" { model := "custom-model" }
    { model := "default-model-1", client := .openai,
      api_key := some "agent1-key", name := "Agent1" }
    (by decide)
  exact h.1

/-! ## Claim theorems: the synchronous endpoints -/

/-- Claim C10: the synchronous multi-type summarize endpoint silently caps the
requested iteration count — above 3 it is set to exactly 3, otherwise (and in
every other field) the input passes through unchanged — while the single-type
endpoint applies no cap at all. -/
theorem c10_multi_sync_iteration_cap (ctx : SummaryInput) :
    (3 < ctx.iterations → text_summarize_all_prepare ctx = { ctx with iterations := 3 })
    ∧ (ctx.iterations ≤ 3 → text_summarize_all_prepare ctx = ctx)
    ∧ text_summarize_prepare ctx = ctx := by
  refine ⟨?_, ?_, rfl⟩
  · intro h
    simp [text_summarize_all_prepare, h]
  · intro h
    simp [text_summarize_all_prepare, not_lt.mpr h]

/-- Claim C10 witness: iterations 5 is capped to 3 by the multi-type path,
iterations 2 passes unchanged, and the single-type path never caps. -/
theorem c10_multi_sync_iteration_cap_witness :
    text_summarize_all_prepare { content := "c", iterations := 5 }
      = { content := "c", iterations := 3 }
    ∧ text_summarize_all_prepare { content := "c", iterations := 2 }
      = { content := "c", iterations := 2 }
    ∧ text_summarize_prepare { content := "c", iterations := 7 }
      = { content := "c", iterations := 7 } :=
  ⟨(c10_multi_sync_iteration_cap { content := "c", iterations := 5 }).1 (by decide),
   (c10_multi_sync_iteration_cap { content := "c", iterations := 2 }).2.1 (by decide),
   (c10_multi_sync_iteration_cap { content := "c", iterations := 7 }).2.2⟩
